import Mathlib

/-!
# Callscribe — formal model and verification of spec claims

Shallow embedding of the core of the Callscribe repository (a Rust streaming
pipeline for radio-scanner transmission logs): the data model (`model.rs`),
the run-length consolidator (`rle_filter.rs`), the field-equality filter
(`filter.rs`), the enrichment stage (`transcription_adder.rs`), the day-sharded
transcript index (`transcriber.rs`), and the two block-format parsers
(`srt.rs`, `srt_stream.rs`) plus the line-format parser (`event_stream.rs`).

Machine integers are modelled as `Nat` with explicit saturation / bounds where
the source uses `u32` / `usize` saturating or fallible arithmetic.  Rust
`String` is modelled as Lean `String`, with byte-level substring scans of the
source modelled at character level (all inputs of interest are ASCII).
`chrono` date-time parsing / timezone resolution and `f64` frequency
normalization are external-library behaviour and are passed in as explicit
function parameters of the embedded parsers, so every theorem quantifies over
them.  Channels are modelled by lists: an async stage reading from a channel
and writing to another becomes a function `List RadioRecord → List RadioRecord`
(the downstream-closed early-exit paths of the source are the degenerate case
where the remaining output is discarded, and are not part of any claim).
-/

namespace Callscribe

/-- Fixed-offset date-time (`chrono::DateTime<FixedOffset>`), recorded as the
local wall-clock fields that `format("%Y%m%d")` / `format("%H%M%S")` read,
plus the offset in minutes. -/
structure DT where
  y : Nat
  mo : Nat
  d : Nat
  hh : Nat
  mi : Nat
  ss : Nat
  offMin : Int
deriving DecidableEq, Repr

/-- Naive local date-time (`chrono::NaiveDateTime`), before timezone
resolution. -/
structure NaiveDT where
  y : Nat
  mo : Nat
  d : Nat
  hh : Nat
  mi : Nat
  ss : Nat
deriving DecidableEq, Repr

/-- `model.rs` `SlotData`. -/
structure SlotData where
  tg : Option String
  rid : Option String
  text : Option String
deriving DecidableEq, Repr

/-- `model.rs` `RadioRecord`.  `duration` is a `u32` in the source, modelled
as a `Nat` that the pipeline keeps `≤ U32MAX`. -/
structure RadioRecord where
  record_number : Nat
  datetime : DT
  frequency : Option String
  radio_type : Option String
  dcc : Option String
  slot1 : SlotData
  slot2 : SlotData
  duration : Nat
deriving DecidableEq, Repr

def emptySlot : SlotData := { tg := none, rid := none, text := none }

/-- `u32::MAX`. -/
def U32MAX : Nat := 4294967295

/-- `usize::MAX` on the 64-bit targets the program is built for. -/
def USIZEMAX : Nat := 18446744073709551615

/-! ## Consolidator (`rle_filter.rs`) -/

/-- `rle_filter.rs` `same_identity`: radio-defining fields only; timestamp,
record number, duration and text are excluded. -/
def same_identity (a b : RadioRecord) : Bool :=
  if a.frequency ≠ b.frequency then false
  else if a.radio_type ≠ b.radio_type then false
  else if a.dcc ≠ b.dcc then false
  else if a.slot1.tg ≠ b.slot1.tg then false
  else if a.slot1.rid ≠ b.slot1.rid then false
  else if a.slot2.tg ≠ b.slot2.tg then false
  else if a.slot2.rid ≠ b.slot2.rid then false
  else true

/-- The duration normalization at the top of the `rle_compress_stream` loop:
`if next.duration == 0 { next.duration = 1 }`. -/
def norm1 (r : RadioRecord) : RadioRecord :=
  if r.duration = 0 then { r with duration := 1 } else r

/-- `u32::saturating_add(1)` on the run's duration. -/
def satAdd1 (d : Nat) : Nat := min U32MAX (d + 1)

/-- Saturating accumulation (`k` saturating increments from `d`); used to
state the consolidator characterization. -/
def satAddN (d k : Nat) : Nat := min U32MAX (d + k)

/-- One iteration of the `rle_compress_stream` loop body: given the open run
(`cur`) and the incoming record, returns the new open run and the record
flushed downstream this step (if any). -/
def rle_step (cur : Option RadioRecord) (next0 : RadioRecord) :
    Option RadioRecord × Option RadioRecord :=
  let next := norm1 next0
  match cur with
  | none => (some next, none)
  | some run =>
    if same_identity run next then
      (some { run with duration := satAdd1 run.duration }, none)
    else
      (some next, some run)

/-- The `rle_compress_stream` loop over the remaining input, starting from an
open-run state; the trailing run is flushed at end of input. -/
def rle_go : Option RadioRecord → List RadioRecord → List RadioRecord
  | none, [] => []
  | some run, [] => [run]
  | cur, next :: rest =>
    match rle_step cur next with
    | (cur', none) => rle_go cur' rest
    | (cur', some out) => out :: rle_go cur' rest

/-- `rle_filter.rs` `rle_compress_stream` as a function on the finite record
sequence carried by its input channel. -/
def rle_compress_stream (input : List RadioRecord) : List RadioRecord :=
  rle_go none input

/-! Specification side for the consolidator claims: maximal adjacent groups of
equal identity, written independently of the source loop. -/

/-- Helper for `specGroups`: `a` is the first record of the current group,
`acc` the (reversed) later records collected into it so far. -/
def specGroupsAux (a : RadioRecord) (acc : List RadioRecord) :
    List RadioRecord → List (List RadioRecord)
  | [] => [a :: acc.reverse]
  | b :: rest =>
    if same_identity a b then specGroupsAux a (b :: acc) rest
    else (a :: acc.reverse) :: specGroupsAux b [] rest

/-- Maximal runs of adjacent records with equal identity (spec §4.2 / §8). -/
def specGroups : List RadioRecord → List (List RadioRecord)
  | [] => []
  | a :: rest => specGroupsAux a [] rest

/-- Spec-side consolidation of one group: the group's first record with its
duration grown by one per further record, saturating at `u32::MAX`. -/
def specCollapse : List RadioRecord → List RadioRecord
  | [] => []
  | a :: g => [{ a with duration := satAddN a.duration g.length }]

/-- Spec-side consolidator: one collapsed record per maximal group of the
duration-normalized input. -/
def consolidatorSpec (input : List RadioRecord) : List RadioRecord :=
  (specGroups (input.map norm1)).flatMap specCollapse

/-! ## Filter (`filter.rs`) -/

/-- `filter.rs` `FilterConfig`. -/
structure FilterConfig where
  freqs : List String
  rtypes : List String
  rids : List String
  tgs : List String
  nacs : List String
deriving DecidableEq, Repr

/-- One guard of `FilterConfig::accept`: passes when the criterion list is
empty, or the field is present and equal to one of the listed values. -/
def critOk (crit : List String) (field : Option String) : Bool :=
  if crit.isEmpty then true
  else match field with
    | some v => crit.contains v
    | none => false

/-- `filter.rs` `FilterConfig::accept`: the five early-return guards in source
order. -/
def FilterConfig.accept (c : FilterConfig) (r : RadioRecord) : Bool :=
  if ¬ critOk c.freqs r.frequency then false
  else if ¬ critOk c.rtypes r.radio_type then false
  else if ¬ critOk c.rids r.slot1.rid then false
  else if ¬ critOk c.tgs r.slot1.tg then false
  else if ¬ critOk c.nacs r.dcc then false
  else true

/-! ## Errors (`errors.rs`) -/

/-- `errors.rs` `AppError`.  The constructor for I/O errors is named `IOE`
here (`IO` itself is reserved in this development). -/
inductive AppError where
  | IOE (msg : String)
  | Parse (msg : String)
  | Other (msg : String)
deriving DecidableEq, Repr

/-! ## Enrichment stage (`transcription_adder.rs`) -/

/-- Per-record body of the `add_transcriptions` loop (the enriched path, with
`record_dir`, `transcriber` present and `max_concurrent > 0`):
`tr` is the transcriber call `t.transcribe(&rec, &dir)` with its
`Result<Option<String>, Option<AppError>>` contract. -/
def process_record (tr : RadioRecord → Except (Option AppError) (Option String))
    (rec : RadioRecord) : RadioRecord :=
  if rec.slot1.text.isNone then
    match tr rec with
    | .ok (some text) => { rec with slot1 := { rec.slot1 with text := some text } }
    | .ok none => rec
    | .error _ => rec
  else rec

/-- `transcription_adder.rs` `add_transcriptions` on the finite input
sequence (enriched path). -/
def add_transcriptions (tr : RadioRecord → Except (Option AppError) (Option String))
    (input : List RadioRecord) : List RadioRecord :=
  input.map (process_record tr)

/-! ## Transcript index (`transcriber.rs`) -/

/-- `transcriber.rs` `K`: per-day lookup key. -/
structure K where
  time : Nat
  freq : String
  tg : Option Nat
  rid : Option Nat
deriving DecidableEq, Repr

/-- A `HashMap<K, PathBuf>` modelled as an association list whose `get` takes
the first (and only) binding for a key; paths are strings. -/
abbrev KMap : Type := List (K × String)

/-- `HashMap::get`. -/
def mget : KMap → K → Option String
  | [], _ => none
  | (k', v) :: rest, k => if k' = k then some v else mget rest k

/-- `HashMap::entry(k).or_insert_with(|| v)`: first-wins insertion. -/
def mput (m : KMap) (k : K) (v : String) : KMap :=
  if (mget m k).isSome then m else (k, v) :: m

/-- `transcriber.rs` `DayIndex`: the four specificity maps of one day shard. -/
structure DayIndex where
  full : KMap
  rid_only : KMap
  tg_only : KMap
  bare : KMap
deriving DecidableEq

def DayIndex.empty : DayIndex := ⟨[], [], [], []⟩

/-- `DayIndex::insert_all`: insert a parsed file key into all four maps,
dropping `tg` for `rid_only`, `rid` for `tg_only`, and both for `bare`;
first-wins on collision. -/
def DayIndex.insert_all (d : DayIndex) (k : K) (path : String) : DayIndex :=
  { full := mput d.full k path
    rid_only := mput d.rid_only { k with tg := none } path
    tg_only := mput d.tg_only { k with rid := none } path
    bare := mput d.bare { k with tg := none, rid := none } path }

/-- `DayIndex::lookup`: try `full`, then `rid_only` with `tg` dropped, then
`tg_only` with `rid` dropped, then `bare`; first hit wins. -/
def DayIndex.lookup (d : DayIndex) (k : K) : Option String :=
  match mget d.full k with
  | some p => some p
  | none =>
    match mget d.rid_only { k with tg := none } with
    | some p => some p
    | none =>
      match mget d.tg_only { k with rid := none } with
      | some p => some p
      | none => mget d.bare { k with tg := none, rid := none }

/-- `transcriber.rs` `Index`: day-sharded (`YYYYMMDD` as a number). -/
abbrev Index : Type := List (Nat × DayIndex)

def lookupDay : Index → Nat → Option DayIndex
  | [], _ => none
  | (d', s) :: rest, d => if d' = d then some s else lookupDay rest d

def insertDay (idx : Index) (d : Nat) (s : DayIndex) : Index := (d, s) :: idx

/-- `TextFileTranscriber::ensure_day_indexed`, sequentially (the lock
acquisitions cannot fail in a single-threaded model, so the
poisoned-lock `Err` paths are unreachable and the result is the new index
state).  The filesystem is the parameter `fsDir`: `fsDir root day` is `none`
when `<root>/<day>` is not a directory, and otherwise the `DayIndex` shard the
directory scan of the source (lines 148–208) would build from its filenames.
The returned `Bool` records whether that directory scan was performed. -/
def ensure_day_indexed (fsDir : String → Nat → Option DayIndex)
    (root : String) (idx : Index) (day : Nat) : Index × Bool :=
  if (lookupDay idx day).isSome then (idx, false)
  else
    match fsDir root day with
    | none => (insertDay idx day DayIndex.empty, false)
    | some shard => (insertDay idx day shard, true)

/-- `TextFileTranscriber::lookup_in_day`. -/
def lookup_in_day (idx : Index) (day : Nat) (k : K) : Option String :=
  match lookupDay idx day with
  | none => none
  | some di => di.lookup k

/-- `TextFileTranscriber::day_from_rec`: `format("%Y%m%d")` then `parse::<u32>`.
Modelled for the representable range (year at most `9999`, a valid calendar
month/day as `chrono` guarantees), where the formatted 8-digit string always
parses and its value is the decimal concatenation. -/
def day_from_rec (r : RadioRecord) : Option Nat :=
  if r.datetime.y ≤ 9999 then
    some (r.datetime.y * 10000 + r.datetime.mo * 100 + r.datetime.d)
  else none

/-- Rust `str::parse::<u32>` (an optional leading `+`, one or more ASCII
digits, value at most `u32::MAX`). -/
def parseU32C (s : List Char) : Option Nat :=
  let t := match s with
    | '+' :: rest => rest
    | _ => s
  if t ≠ [] ∧ t.all Char.isDigit then
    let v := t.foldl (fun a c => a * 10 + (c.toNat - 48)) 0
    if v ≤ U32MAX then some v else none
  else none

def parseU32S (s : String) : Option Nat := parseU32C s.data

/-- `TextFileTranscriber::key_from_rec`.  `%H%M%S` always yields a
parseable 6-digit string for valid times, so the `time` component is total;
`nf` is the `normalize_freq` helper (`f64` parse-and-reformat, an
external-library behaviour passed as a parameter). -/
def key_from_rec (nf : String → String) (r : RadioRecord) : Option K :=
  let time := r.datetime.hh * 10000 + r.datetime.mi * 100 + r.datetime.ss
  match r.frequency with
  | none => none
  | some fs =>
    some { time := time
           freq := nf fs
           tg := r.slot1.tg.bind parseU32S
           rid := r.slot1.rid.bind parseU32S }

/-- Root choice at the top of `TextFileTranscriber::transcribe` (lines
276–287): prefer the per-call `record_dir`, fall back to the construction-time
root, and fail when both are empty. -/
def chooseRoot (record_dir self_root : String) : Except AppError String :=
  if record_dir = "" then
    if self_root = "" then
      .error (.Parse "TextFileTranscriber has no record_dir root")
    else .ok self_root
  else .ok record_dir

/-- The part of `TextFileTranscriber::transcribe` after the root has been
chosen: ensure the day shard, look the key up with fallbacks, and read the
matched file.  `fsRead path` models `fs::read_to_string` (`.error e` is an
OS failure with message `e`).  Returns the new index state together with the
source's `Result<Option<String>, Option<AppError>>`. -/
def transcribe_with_root (fsDir : String → Nat → Option DayIndex)
    (fsRead : String → Except String String) (idx : Index)
    (day : Nat) (key : K) (root : String) :
    Index × Except (Option AppError) (Option String) :=
  let idx' := (ensure_day_indexed fsDir root idx day).1
  match lookup_in_day idx' day key with
  | some path =>
    match fsRead path with
    | .ok s => (idx', .ok (some s))
    | .error e => (idx', .error (some (.IOE ("read " ++ path ++ ": " ++ e))))
  | none => (idx', .ok none)

/-- `TextFileTranscriber::transcribe` (with the index state made explicit;
`self_root` is the construction-time root). -/
def transcribe (nf : String → String) (fsDir : String → Nat → Option DayIndex)
    (fsRead : String → Except String String) (self_root : String) (idx : Index)
    (rec : RadioRecord) (record_dir : String) :
    Index × Except (Option AppError) (Option String) :=
  match day_from_rec rec with
  | none => (idx, .ok none)
  | some day =>
    match key_from_rec nf rec with
    | none => (idx, .ok none)
    | some key =>
      match chooseRoot record_dir self_root with
      | .error e => (idx, .error (some e))
      | .ok root => transcribe_with_root fsDir fsRead idx day key root

/-! ## String utilities shared by the parsers

Rust string slices are modelled as `List Char`; the byte-index substring
scans (`str::find`) become character-index scans, which agree on the ASCII
log lines the program consumes.  Rust `char::is_whitespace` is modelled by
`Char.isWhitespace` (they agree on ASCII). -/

def strOf (l : List Char) : String := ⟨l⟩

def isWS (c : Char) : Bool := c.isWhitespace

/-- `str::trim`. -/
def trimC (s : List Char) : List Char :=
  ((s.dropWhile isWS).reverse.dropWhile isWS).reverse

/-- The byte-order mark U+FEFF. -/
def bomChar : Char := Char.ofNat 65279

/-- `strip_bom`: `s.strip_prefix(BOM).unwrap_or(s)`. -/
def stripBomC (s : List Char) : List Char :=
  match s with
  | c :: rest => if c = bomChar then rest else c :: rest
  | [] => []

/-- `str::starts_with('+')`-style single-character prefix test. -/
def startsWithChar (c : Char) (s : List Char) : Bool :=
  match s with
  | c' :: _ => c' = c
  | [] => false

/-- `str::strip_prefix(p)`. -/
def stripPrefixC (p s : List Char) : Option (List Char) :=
  if p.isPrefixOf s then some (s.drop p.length) else none

/-- Accumulator helper for `splitWS`. -/
def splitWSAux (cur : List Char) : List Char → List (List Char)
  | [] => if cur = [] then [] else [cur.reverse]
  | c :: rest =>
    if isWS c then
      if cur = [] then splitWSAux [] rest
      else cur.reverse :: splitWSAux [] rest
    else splitWSAux (c :: cur) rest

/-- `str::split_whitespace` as a token list. -/
def splitWS (s : List Char) : List (List Char) := splitWSAux [] s

/-- `tail.split_whitespace().next().unwrap_or("")`. -/
def firstTok (s : List Char) : List Char :=
  (s.dropWhile isWS).takeWhile (fun c => ¬ isWS c)

/-- `str::find(pat)`: index of the first occurrence of `pat`. -/
def findSub (s pat : List Char) : Option Nat :=
  match s with
  | [] => if pat = [] then some 0 else none
  | _ :: rest =>
    if pat.isPrefixOf s then some 0
    else (findSub rest pat).map (· + 1)

/-- `str::contains(pat)`. -/
def containsSub (s pat : List Char) : Bool := (findSub s pat).isSome

/-- The recurring extraction idiom
`s.find(key).map(|i| s[i+key.len()..].split_whitespace().next())`, keeping the
token only when non-empty. -/
def scanKeyC (s pat : List Char) : Option (List Char) :=
  match findSub s pat with
  | none => none
  | some i =>
    let tok := firstTok (s.drop (i + pat.length))
    if tok = [] then none else some tok

/-- Rust `str::parse` for an unsigned integer type with maximum `bound`
(an optional leading `+`, then one or more ASCII digits, value within
bounds). -/
def parseNatBounded (bound : Nat) (s : List Char) : Option Nat :=
  let t := match s with
    | '+' :: rest => rest
    | _ => s
  if t ≠ [] ∧ t.all Char.isDigit then
    let v := t.foldl (fun a c => a * 10 + (c.toNat - 48)) 0
    if v ≤ bound then some v else none
  else none

def parseU8C (s : List Char) : Option Nat := parseNatBounded 255 s
def parseUsizeC (s : List Char) : Option Nat := parseNatBounded USIZEMAX s

/-- `t.ends_with('s')`. -/
def endsWithS (t : List Char) : Bool := t.getLast? = some 's'

/-! ## Shared block-format field extraction (`srt.rs` / `srt_stream.rs`) -/

/-- `parse_tg_rid` (identical in `srt.rs` and `srt_stream.rs`): scan the
whitespace tokens; each `TG=`/`RID=` token with a non-empty value overwrites
the previous one. -/
def parse_tg_rid (s0 : List Char) : Option String × Option String :=
  let s := stripBomC s0
  (splitWS s).foldl
    (fun acc tok =>
      match stripPrefixC "TG=".data tok with
      | some rest => if rest ≠ [] then (some (strOf rest), acc.2) else acc
      | none =>
        match stripPrefixC "RID=".data tok with
        | some rest => if rest ≠ [] then (acc.1, some (strOf rest)) else acc
        | none => acc)
    (none, none)

/-- The radio-type token collection of `parse_freq_type_dcc`: seek the first
token starting with `+`, then extend with following tokens until one contains
`=` or starts with `+`. -/
def rtypeParts (toks : List (List Char)) : List (List Char) :=
  match toks.dropWhile (fun t => ¬ startsWithChar '+' t) with
  | [] => []
  | plusTok :: after =>
    plusTok :: after.takeWhile (fun t => ¬ (t.contains '=') ∧ ¬ startsWithChar '+' t)

/-- The `DCC=`-preferred channel-code scan shared by both block-format
variants of `parse_freq_type_dcc`: `DCC=` first, `NAC=` only if that found
nothing. -/
def blockChannelCode (s : List Char) : Option String :=
  match scanKeyC s "DCC=".data with
  | some v => some (strOf v)
  | none => (scanKeyC s "NAC=".data).map strOf

/-- The leading-frequency token of `parse_freq_type_dcc`: the first
whitespace token when it consists of ASCII digits and `.` only. -/
def blockFreqTok (toks : List (List Char)) : Option (List Char) :=
  match toks with
  | [] => none
  | t :: _ => if t.all (fun c => c.isDigit || c = '.') then some t else none

/-- `srt.rs` `parse_freq_type_dcc` (the synchronous variant: the joined
radio-type keeps its leading `+`). -/
def parse_freq_type_dcc_srt (line : List Char) :
    Option String × Option String × Option String :=
  let s := stripBomC (trimC line)
  let toks := splitWS s
  let freq := blockFreqTok toks
  let toks1 := if freq.isSome then toks.drop 1 else toks
  let parts := rtypeParts toks1
  let rtype := if parts = [] then none
    else some (strOf (List.intercalate [' '] parts))
  (freq.map strOf, rtype, blockChannelCode s)

/-- `srt_stream.rs` `parse_freq_type_dcc` (the streaming variant: the joined
radio-type drops all leading `+` characters — the "Excel guard"). -/
def parse_freq_type_dcc_stream (line : List Char) :
    Option String × Option String × Option String :=
  let s := stripBomC (trimC line)
  let toks := splitWS s
  let freq := blockFreqTok toks
  let toks1 := if freq.isSome then toks.drop 1 else toks
  let parts := rtypeParts toks1
  let rtype := if parts = [] then none
    else some (strOf ((List.intercalate [' '] parts).dropWhile (· = '+')))
  (freq.map strOf, rtype, blockChannelCode s)

/-- The detail-line loop shared by `srt.rs` (lines 179–208) and
`srt_stream.rs` (lines 170–192): consume lines until a blank line (consumed)
or end of input; `Slot <n>` lines assign to the named slot, bare `TG=`/`RID=`
lines to the first slot lacking the field, else the second. -/
def detailsLoop (s1 s2 : SlotData) :
    List (List Char) → SlotData × SlotData × List (List Char)
  | [] => (s1, s2, [])
  | line :: ls =>
    let s := trimC line
    if s = [] then (s1, s2, ls)
    else
      let s_nb := stripBomC s
      match stripPrefixC "Slot ".data s_nb with
      | some rest =>
        let slot_no := firstTok rest
        let rest_of_line := trimC (rest.drop slot_no.length)
        let (tg, rid) := parse_tg_rid rest_of_line
        if slot_no = ['1'] then
          detailsLoop { s1 with tg := if tg.isSome then tg else s1.tg
                                rid := if rid.isSome then rid else s1.rid } s2 ls
        else if slot_no = ['2'] then
          detailsLoop s1 { s2 with tg := if tg.isSome then tg else s2.tg
                                   rid := if rid.isSome then rid else s2.rid } ls
        else detailsLoop s1 s2 ls
      | none =>
        if "TG=".data.isPrefixOf s_nb || containsSub s_nb " TG=".data ||
            containsSub s_nb "RID=".data then
          let (tg, rid) := parse_tg_rid s_nb
          let (s1a, s2a) :=
            if s1.tg.isNone ∧ tg.isSome then ({ s1 with tg := tg }, s2)
            else if s2.tg.isNone ∧ tg.isSome then (s1, { s2 with tg := tg })
            else (s1, s2)
          let (s1b, s2b) :=
            if s1a.rid.isNone ∧ rid.isSome then ({ s1a with rid := rid }, s2a)
            else if s2a.rid.isNone ∧ rid.isSome then (s1a, { s2a with rid := rid })
            else (s1a, s2a)
          detailsLoop s1b s2b ls
        else detailsLoop s1 s2 ls

/-! ## Line-format parser (`event_stream.rs`)

`pDT` models `chrono::NaiveDateTime::parse_from_str(_, "%Y/%m/%d %H:%M:%S")`
and `aTz` models `apply_tz` (timezone resolution, whose `AppError` carries the
branch-specific message); both are external-library behaviour passed in as
parameters.  `nf` models `normalize_freq` (`f64` parse-and-reformat). -/

/-- The `NAC=`-preferred channel-code scan of `parse_event_line` (lines
92–108): `NAC=` first, `DCC=` only if that found nothing — the asymmetry
with the block format's `DCC=`-preferred scan. -/
def lineChannelCode (s : List Char) : Option String :=
  match scanKeyC s "NAC=".data with
  | some v => some (strOf v)
  | none => (scanKeyC s "DCC=".data).map strOf

/-- `event_stream.rs` `parse_event_line`. -/
def parse_event_line (pDT : List Char → Option NaiveDT)
    (aTz : NaiveDT → Except AppError DT) (nf : String → String)
    (line : List Char) (record_number : Nat) :
    Except AppError (Option RadioRecord) :=
  let s := trimC (stripBomC line)
  if s = [] then .ok none
  else if ¬ containsSub s "Group call;".data then .ok none
  else
    match splitWS s with
    | [] => .ok none
    | [_] => .ok none
    | date_tok :: time_tok :: _ =>
      match pDT (date_tok ++ [' '] ++ time_tok) with
      | none => .ok none
      | some naive =>
        match aTz naive with
        | .error e => .error e
        | .ok datetime =>
          let freq := (scanKeyC s "Freq=".data).map (fun tok => nf (strOf tok))
          let dcc_or_nac := lineChannelCode s
          let radio_type := if containsSub s "NAC=".data then some "P25p1"
            else if containsSub s "DCC=".data then some "DMR" else none
          let tg := (scanKeyC s "TG=".data).map strOf
          let rid := (scanKeyC s "RID=".data).map strOf
          let slot := match findSub s "Slot=".data with
            | none => none
            | some i => parseU8C (firstTok (s.drop (i + 5)))
          let duration := match (splitWS s).reverse.find? endsWithS with
            | some last_tok =>
              match parseNatBounded U32MAX last_tok.dropLast with
              | some num => max num 1
              | none => 1
            | none => 1
          let (slot1, slot2) :=
            if radio_type = some "DMR" ∧ slot = some 1 then
              ({ emptySlot with tg := tg, rid := rid }, emptySlot)
            else if radio_type = some "DMR" ∧ slot = some 2 then
              (emptySlot, { emptySlot with tg := tg, rid := rid })
            else ({ emptySlot with tg := tg, rid := rid }, emptySlot)
          .ok (some { record_number := record_number
                      datetime := datetime
                      frequency := freq
                      radio_type := radio_type
                      dcc := dcc_or_nac
                      slot1 := slot1
                      slot2 := slot2
                      duration := duration })

/-- The `stream_file` loop of `event_stream.rs`: `recno` starts at the given
value and is advanced with `usize::saturating_add(1)` only after an accepted
record is forwarded. -/
def event_go (pDT : List Char → Option NaiveDT)
    (aTz : NaiveDT → Except AppError DT) (nf : String → String) :
    Nat → List (List Char) → List RadioRecord
  | _, [] => []
  | recno, l :: ls =>
    match parse_event_line pDT aTz nf l recno with
    | .ok (some rec) => rec :: event_go pDT aTz nf (min USIZEMAX (recno + 1)) ls
    | .ok none => event_go pDT aTz nf recno ls
    | .error _ => event_go pDT aTz nf recno ls

/-- `event_stream.rs` `stream_file` on a file's line sequence. -/
def event_stream_file (pDT : List Char → Option NaiveDT)
    (aTz : NaiveDT → Except AppError DT) (nf : String → String)
    (lines : List (List Char)) : List RadioRecord :=
  event_go pDT aTz nf 1 lines

/-! ## Block-format parsers (`srt.rs` and `srt_stream.rs`)

Both are line-driven loops; each iteration consumes at least one input line,
so the loops are written with a fuel of `lines.length + 1`, which can never be
exhausted.  The source files construct records from a model revision without a
`duration` field; the embedded records carry `duration := 0`, matching the
consolidator's treatment of block records (spec §4.2 normalizes a duration of
`0` to `1`). -/

/-- `srt.rs` `read_nonempty_line`: skip blank lines, return the first
non-blank line and the rest. -/
def readNonempty : List (List Char) → Option (List Char × List (List Char))
  | [] => none
  | l :: ls => if trimC l = [] then readNonempty ls else some (l, ls)

/-- The drain-on-bad-block loop (`drain_block` in `srt_stream.rs` and the
inline drains of `srt.rs`): consume lines up to and including the next blank
line, or to end of input. -/
def drainLines : List (List Char) → List (List Char)
  | [] => []
  | l :: ls => if trimC l = [] then ls else drainLines ls

/-- One iteration of the `parse_srt_reader` main loop of `srt.rs`:
`none` means the loop breaks (end of input mid-block emits nothing), otherwise
the optionally-emitted record and the remaining lines. -/
def stepSrt (pDT : List Char → Option NaiveDT)
    (aTz : NaiveDT → Except AppError DT) (lines : List (List Char)) :
    Option (Option RadioRecord × List (List Char)) :=
  match readNonempty lines with
  | none => none
  | some (idxLine, r1) =>
    let record_number := (parseUsizeC (stripBomC (trimC idxLine))).getD 0
    match readNonempty r1 with
    | none => none
    | some (_, r2) =>
      match readNonempty r2 with
      | none => none
      | some (dtLine, r3) =>
        match pDT (stripBomC (trimC dtLine)) with
        | none => some (none, drainLines r3)
        | some naive =>
          match aTz naive with
          | .error _ => some (none, drainLines r3)
          | .ok datetime =>
            match readNonempty r3 with
            | none => none
            | some (freqLine, r4) =>
              let (frequency, radio_type, dcc) := parse_freq_type_dcc_srt freqLine
              let (slot1, slot2, r5) := detailsLoop emptySlot emptySlot r4
              some (some { record_number := record_number
                           datetime := datetime
                           frequency := frequency
                           radio_type := radio_type
                           dcc := dcc
                           slot1 := slot1
                           slot2 := slot2
                           duration := 0 }, r5)

/-- Fueled main loop of `parse_srt_reader`. -/
def srtGo (pDT : List Char → Option NaiveDT)
    (aTz : NaiveDT → Except AppError DT) :
    Nat → List (List Char) → List RadioRecord
  | 0, _ => []
  | fuel + 1, lines =>
    match stepSrt pDT aTz lines with
    | none => []
    | some (none, rest) => srtGo pDT aTz fuel rest
    | some (some r, rest) => r :: srtGo pDT aTz fuel rest

/-- `srt.rs` `parse_srt_reader` on a file's line sequence. -/
def parse_srt_reader (pDT : List Char → Option NaiveDT)
    (aTz : NaiveDT → Except AppError DT) (lines : List (List Char)) :
    List RadioRecord :=
  srtGo pDT aTz (lines.length + 1) lines

/-- One iteration of the `stream_file` main loop of `srt_stream.rs`.  Unlike
`srt.rs` it skips blank lines only before the index line, reads the other
block lines verbatim, and — the behaviour at issue in claim C3 — *drains and
discards* the whole block when the index line does not parse as a number. -/
def stepStream (pDT : List Char → Option NaiveDT)
    (aTz : NaiveDT → Except AppError DT) (lines : List (List Char)) :
    Option (Option RadioRecord × List (List Char)) :=
  match lines with
  | [] => none
  | idxLine :: r1 =>
    if trimC idxLine = [] then some (none, r1)
    else
      match parseUsizeC (stripBomC (trimC idxLine)) with
      | none => some (none, drainLines r1)
      | some record_number =>
        match r1 with
        | [] => none
        | _ :: r2 =>
          match r2 with
          | [] => none
          | dtLine :: r3 =>
            match pDT (stripBomC (trimC dtLine)) with
            | none => some (none, drainLines r3)
            | some naive =>
              match aTz naive with
              | .error _ => some (none, drainLines r3)
              | .ok datetime =>
                match r3 with
                | [] => none
                | freqLine :: r4 =>
                  let (frequency, radio_type, dcc) :=
                    parse_freq_type_dcc_stream freqLine
                  let (slot1, slot2, r5) := detailsLoop emptySlot emptySlot r4
                  some (some { record_number := record_number
                               datetime := datetime
                               frequency := frequency
                               radio_type := radio_type
                               dcc := dcc
                               slot1 := slot1
                               slot2 := slot2
                               duration := 0 }, r5)

/-- Fueled main loop of the streaming block parser. -/
def streamGo (pDT : List Char → Option NaiveDT)
    (aTz : NaiveDT → Except AppError DT) :
    Nat → List (List Char) → List RadioRecord
  | 0, _ => []
  | fuel + 1, lines =>
    match stepStream pDT aTz lines with
    | none => []
    | some (none, rest) => streamGo pDT aTz fuel rest
    | some (some r, rest) => r :: streamGo pDT aTz fuel rest

/-- `srt_stream.rs` `stream_file` on a file's line sequence. -/
def srt_stream_file (pDT : List Char → Option NaiveDT)
    (aTz : NaiveDT → Except AppError DT) (lines : List (List Char)) :
    List RadioRecord :=
  streamGo pDT aTz (lines.length + 1) lines

/-! ## Concrete instances used by witnesses and counterexamples -/

/-- A concrete record without transcript text. -/
def wrec : RadioRecord :=
  { record_number := 1, datetime := ⟨2025, 9, 9, 18, 39, 20, 0⟩,
    frequency := some "153.450000", radio_type := some "DMR", dcc := some "5",
    slot1 := emptySlot, slot2 := emptySlot, duration := 1 }

/-- The run whose duration has already reached `u32::MAX`. -/
def cexRunMax : RadioRecord := { wrec with duration := U32MAX }

/-- An incoming record with the same identity as `cexRunMax`. -/
def cexNextMax : RadioRecord := { wrec with duration := 5 }

/-- The single-record input whose duration is 7. -/
def cexDur7 : RadioRecord := { wrec with duration := 7 }

/-- The lookup key `key_from_rec` derives from `wrec`. -/
def cexKey : K := { time := 183920, freq := "153.450000", tg := none, rid := none }

/-- A day shard holding one transcript file at path `p` under `wrec`'s key. -/
def cexShard : DayIndex := DayIndex.empty.insert_all cexKey "p"

/-- A filesystem whose day directory for `wrec` scans to `cexShard`. -/
def cexFsDir : String → Nat → Option DayIndex := fun root day =>
  if root = "/r" ∧ day = 20250909 then some cexShard else none

/-- A filesystem on which every file read fails. -/
def cexFsRead : String → Except String String := fun _ => .error "denied"

/-- A line carrying both `NAC=293` and `DCC=5`. -/
def cexC4Line : List Char :=
  "2025/09/09 18:39:20 Freq=153.450000 NAC=293 DCC=5 Group call; 7s".data

/-- A date-time parse model accepting exactly the timestamp of the concrete
test blocks. -/
def pDTx : List Char → Option NaiveDT := fun s =>
  if s = "2025/09/09 18:39:20".data then some ⟨2025, 9, 9, 18, 39, 20⟩ else none

/-- A timezone-resolution model mapping a naive time to offset 0. -/
def aTzx : NaiveDT → Except AppError DT := fun n =>
  .ok ⟨n.y, n.mo, n.d, n.hh, n.mi, n.ss, 0⟩

/-- A well-formed block-format block whose index line `abc` is not numeric. -/
def cexSrtLines : List (List Char) :=
  ["abc", "00:00:01,000 --> 00:00:03,000", "2025/09/09 18:39:20",
   "153.450000  +DMR  DCC=5", "TG=2 RID=4506", ""].map String.data

/-- A date-time parse model that accepts every line (used to drive the
line-format parser on arbitrarily long inputs). -/
def pDTg : List Char → Option NaiveDT := fun _ => some ⟨2025, 9, 9, 18, 39, 20⟩

/-- A transmission-event line accepted by the line-format parser. -/
def cexCallLine : List Char := "2025/09/09 18:39:20 Group call; TG=2 7s".data

/-- The record `parse_event_line` produces from `cexCallLine` (under `pDTg`
and `aTzx`) when the running counter is `r`. -/
def cexCallRec (r : Nat) : RadioRecord :=
  { record_number := r, datetime := ⟨2025, 9, 9, 18, 39, 20, 0⟩,
    frequency := none, radio_type := none, dcc := none,
    slot1 := { tg := some "2", rid := none, text := none },
    slot2 := emptySlot, duration := 7 }

/-! # Theorems -/

/-! ## C8 — filter acceptance -/

lemma critOk_iff (crit : List String) (f : Option String) :
    critOk crit f = true ↔ (crit ≠ [] → ∃ v, f = some v ∧ v ∈ crit) := by
  cases f with
  | none => simp [critOk, List.isEmpty_iff]
  | some v =>
    simp only [critOk, List.isEmpty_iff, Option.some.injEq]
    constructor
    · intro h hne
      split at h
      · exact absurd (by assumption) hne
      · exact ⟨v, rfl, by simpa using h⟩
    · intro h
      by_cases hne : crit = []
      · simp [hne]
      · rcases h hne with ⟨w, hw, hmem⟩
        cases hw
        simp [hne, hmem]

/-- C8: `FilterConfig::accept` returns `true` iff, for every non-empty
criterion list (frequencies, radio types, radio ids, talkgroups, channel
codes), the corresponding record field (`slot1`'s for radio id and talkgroup)
is present and equal to one of the listed values; empty lists impose no
constraint, and an absent field with a non-empty matching list rejects the
record. -/
theorem filter_accept_iff (c : FilterConfig) (r : RadioRecord) :
    c.accept r = true ↔
      ((c.freqs ≠ [] → ∃ v, r.frequency = some v ∧ v ∈ c.freqs) ∧
       (c.rtypes ≠ [] → ∃ v, r.radio_type = some v ∧ v ∈ c.rtypes) ∧
       (c.rids ≠ [] → ∃ v, r.slot1.rid = some v ∧ v ∈ c.rids) ∧
       (c.tgs ≠ [] → ∃ v, r.slot1.tg = some v ∧ v ∈ c.tgs) ∧
       (c.nacs ≠ [] → ∃ v, r.dcc = some v ∧ v ∈ c.nacs)) := by
  unfold FilterConfig.accept
  rw [← critOk_iff c.freqs, ← critOk_iff c.rtypes, ← critOk_iff c.rids,
    ← critOk_iff c.tgs, ← critOk_iff c.nacs]
  split_ifs <;> simp_all

/-! ## C6 — enrichment stage frame property -/

/-- C6: the enrichment stage forwards each record equal to its input in every
field except possibly `slot1.text`; `slot1.text` changes only when it was
absent and the transcriber returned text; a no-match result (`Ok(None)`) or a
transcriber error (in particular a failed read of a matched file,
`Err(Some(IO(..)))`) leaves the record unmodified, and the stage itself does
not fail (it is a total function of the input sequence).  The last conjunct
ties the per-record body to the stage: `add_transcriptions` applies it to each
record independently. -/
theorem enrichment_frame (tr : RadioRecord → Except (Option AppError) (Option String))
    (rec : RadioRecord) :
    (∀ input, add_transcriptions tr input = input.map (process_record tr)) ∧
    (process_record tr rec).record_number = rec.record_number ∧
    (process_record tr rec).datetime = rec.datetime ∧
    (process_record tr rec).frequency = rec.frequency ∧
    (process_record tr rec).radio_type = rec.radio_type ∧
    (process_record tr rec).dcc = rec.dcc ∧
    (process_record tr rec).duration = rec.duration ∧
    (process_record tr rec).slot1.tg = rec.slot1.tg ∧
    (process_record tr rec).slot1.rid = rec.slot1.rid ∧
    (process_record tr rec).slot2 = rec.slot2 ∧
    ((process_record tr rec).slot1.text ≠ rec.slot1.text →
      rec.slot1.text = none ∧
      ∃ t, tr rec = .ok (some t) ∧ (process_record tr rec).slot1.text = some t) ∧
    (tr rec = .ok none → process_record tr rec = rec) ∧
    (∀ e, tr rec = .error e → process_record tr rec = rec) := by
  refine ⟨fun _ => rfl, ?_⟩
  unfold process_record
  by_cases h : rec.slot1.text.isNone
  · rw [if_pos h]
    rcases htr : tr rec with e | o
    · simp_all
    · rcases o with _ | t <;> simp_all [Option.isNone_iff_eq_none]
  · rw [if_neg h]
    simp

/-- Witness for C6: a concrete record lacking text, with a transcriber that
returns text, gets exactly that text attached. -/
theorem enrichment_frame_witness :
    (process_record (fun _ => .ok (some "hello")) wrec).slot1.text ≠ wrec.slot1.text ∧
    wrec.slot1.text = none ∧
    ∃ t, (fun (_ : RadioRecord) => (.ok (some "hello") : Except (Option AppError) (Option String))) wrec = .ok (some t) ∧
      (process_record (fun _ => .ok (some "hello")) wrec).slot1.text = some t := by
  refine ⟨by decide, ?_⟩
  exact (enrichment_frame (fun _ => .ok (some "hello")) wrec).2.2.2.2.2.2.2.2.2.2.1 (by decide)

/-! ## C2 — index lookup fallback order -/

lemma mput_nil (k : K) (v : String) : mput [] k v = [(k, v)] := rfl

/-- C2: `DayIndex::lookup` tries the query key against the four maps in order
full (as given), then `rid_only` (tg dropped), then `tg_only` (rid dropped),
then bare (tg and rid dropped), returning the first match or none; and for a
shard built from a single bare file (its parsed key has no tg and no rid), a
query carrying that time and frequency plus any tg and rid values still
resolves to that file. -/
theorem dayindex_lookup_fallback :
    (∀ (d : DayIndex) (k : K),
      d.lookup k =
        ((mget d.full k).orElse fun _ =>
          ((mget d.rid_only { k with tg := none }).orElse fun _ =>
            ((mget d.tg_only { k with rid := none }).orElse fun _ =>
              mget d.bare { k with tg := none, rid := none })))) ∧
    (∀ (t : Nat) (f p : String) (tg rid : Option Nat),
      (DayIndex.empty.insert_all { time := t, freq := f, tg := none, rid := none } p).lookup
        { time := t, freq := f, tg := tg, rid := rid } = some p) := by
  constructor
  · intro d k
    unfold DayIndex.lookup
    rcases hf : mget d.full k with _ | p
    · rcases hr : mget d.rid_only { k with tg := none } with _ | p
      · rcases ht : mget d.tg_only { k with rid := none } with _ | p
        · simp [hf, hr, ht, Option.orElse]
        · simp [hf, hr, ht, Option.orElse]
      · simp [hf, hr, Option.orElse]
    · simp [hf, Option.orElse]
  · intro t f p tg rid
    unfold DayIndex.insert_all DayIndex.empty DayIndex.lookup
    rcases tg with _ | a <;> rcases rid with _ | b <;>
      simp [mput, mget, K.mk.injEq]

/-! ## C7 — lazy day indexing is idempotent -/

lemma lookupDay_insertDay (idx : Index) (d : Nat) (s : DayIndex) :
    lookupDay (insertDay idx d s) d = some s := by
  simp [insertDay, lookupDay]

/-- C7: once a day key is present in the index — from a scan or from the
missing-directory sentinel — every later `ensure_day_indexed` call for that
day returns with the index unmodified and performs no directory scan (second
component `false`); and when the day's directory does not exist
(`fsDir root day = none`), the call installs an empty shard without scanning
and succeeds (the function is total; the only `Err` path of the source is a
poisoned lock, which cannot occur in this sequential model), so the day is
never rescanned. -/
theorem ensure_day_indexed_idempotent :
    (∀ (fsDir : String → Nat → Option DayIndex) (root : String) (idx : Index) (day : Nat),
      (lookupDay idx day).isSome →
        ensure_day_indexed fsDir root idx day = (idx, false)) ∧
    (∀ (fsDir fsDir2 : String → Nat → Option DayIndex) (root root2 : String)
        (idx : Index) (day : Nat),
      ensure_day_indexed fsDir2 root2 (ensure_day_indexed fsDir root idx day).1 day =
        ((ensure_day_indexed fsDir root idx day).1, false)) ∧
    (∀ (fsDir : String → Nat → Option DayIndex) (root : String) (idx : Index) (day : Nat),
      fsDir root day = none → lookupDay idx day = none →
        ensure_day_indexed fsDir root idx day =
          (insertDay idx day DayIndex.empty, false)) := by
  refine ⟨fun fsDir root idx day h => by simp [ensure_day_indexed, h], ?_, ?_⟩
  · intro fsDir fsDir2 root root2 idx day
    by_cases h : (lookupDay idx day).isSome
    · simp [ensure_day_indexed, h]
    · unfold ensure_day_indexed
      rw [if_neg h]
      rcases fsDir root day with _ | shard <;>
        simp [lookupDay_insertDay, ensure_day_indexed]
  · intro fsDir root idx day hfs hidx
    simp [ensure_day_indexed, hfs, hidx]

/-- Witness for C7: with a day already present in a concrete index, the call
returns it unchanged with no scan. -/
theorem ensure_day_indexed_idempotent_witness :
    ensure_day_indexed (fun _ _ => none) "/r" [(20250909, DayIndex.empty)] 20250909 =
      ([(20250909, DayIndex.empty)], false) :=
  ensure_day_indexed_idempotent.1 (fun _ _ => none) "/r" [(20250909, DayIndex.empty)]
    20250909 (by decide)

/-! ## C5 — extending a run changes only the duration -/

lemma same_identity_norm1_right (a b : RadioRecord) :
    same_identity a (norm1 b) = same_identity a b := by
  unfold norm1
  split <;> rfl

lemma same_identity_norm1_left (a b : RadioRecord) :
    same_identity (norm1 a) b = same_identity a b := by
  unfold norm1
  split <;> rfl

lemma same_identity_dur_left (a b : RadioRecord) (d : Nat) :
    same_identity { a with duration := d } b = same_identity a b := rfl

/-- C5 (amended): when the incoming record has the same identity as the open
run, the loop keeps the run and only bumps its duration — by
`u32::saturating_add(1)`, so by exactly 1 except at `u32::MAX` — and nothing
is emitted; the run's timestamp, record number, frequency, radio type,
channel code, slots (including any attached text) are unchanged, and nothing
is copied from the incoming record. -/
theorem rle_extend_frame (run next : RadioRecord)
    (h : same_identity run (norm1 next) = true) :
    rle_step (some run) next =
      (some { run with duration := min U32MAX (run.duration + 1) }, none) ∧
    ({ run with duration := min U32MAX (run.duration + 1) }).record_number = run.record_number ∧
    ({ run with duration := min U32MAX (run.duration + 1) }).datetime = run.datetime ∧
    ({ run with duration := min U32MAX (run.duration + 1) }).frequency = run.frequency ∧
    ({ run with duration := min U32MAX (run.duration + 1) }).radio_type = run.radio_type ∧
    ({ run with duration := min U32MAX (run.duration + 1) }).dcc = run.dcc ∧
    ({ run with duration := min U32MAX (run.duration + 1) }).slot1 = run.slot1 ∧
    ({ run with duration := min U32MAX (run.duration + 1) }).slot2 = run.slot2 := by
  refine ⟨?_, rfl, rfl, rfl, rfl, rfl, rfl, rfl⟩
  simp [rle_step, satAdd1, h]

/-- Witness for C5: a same-identity extension at a small duration. -/
theorem rle_extend_frame_witness :
    same_identity wrec (norm1 wrec) = true ∧
    rle_step (some wrec) wrec =
      (some { wrec with duration := min U32MAX (wrec.duration + 1) }, none) :=
  ⟨by decide, (rle_extend_frame wrec wrec (by decide)).1⟩

/-- Counterexample to C5 as stated: at `duration = u32::MAX` the extension
leaves the duration unchanged instead of incrementing it by exactly 1. -/
theorem rle_extend_saturates :
    same_identity cexRunMax (norm1 cexNextMax) = true ∧
    (rle_step (some cexRunMax) cexNextMax).1.map RadioRecord.duration =
      some cexRunMax.duration ∧
    cexRunMax.duration ≠ cexRunMax.duration + 1 := by
  refine ⟨by decide, ?_, by decide⟩
  decide

/-! ## C1 — consolidator output characterization -/

/-- The flushed-run formula of the `rle_compress_stream` loop: from an open
run it absorbs exactly the maximal same-identity prefix of the rest,
adding one to the duration (saturating) per absorbed record. -/
lemma satAddN_self (d : Nat) (h : d ≤ U32MAX) : satAddN d 0 = d := by
  unfold satAddN
  omega

lemma rle_go_some (l : List RadioRecord) : ∀ run : RadioRecord,
    run.duration ≤ U32MAX →
    rle_go (some run) l =
      { run with
        duration := satAddN run.duration (l.takeWhile (fun b => same_identity run b)).length } ::
        rle_go none (l.dropWhile (fun b => same_identity run b)) := by
  induction l with
  | nil =>
    intro run h
    simp only [rle_go, List.takeWhile_nil, List.length_nil, List.dropWhile_nil,
      satAddN_self _ h]
  | cons b rest ih =>
    intro run h
    by_cases hb : same_identity run b
    · have hstep : rle_go (some run) (b :: rest) =
          rle_go (some { run with duration := satAdd1 run.duration }) rest := by
        simp [rle_go, rle_step, same_identity_norm1_right, hb]
      rw [hstep, ih _ (Nat.min_le_left _ _)]
      rw [List.takeWhile_cons_of_pos hb, List.dropWhile_cons_of_pos hb]
      simp only [same_identity_dur_left, List.length_cons, satAdd1]
      have harith : ∀ k, satAddN (min U32MAX (run.duration + 1)) k =
          satAddN run.duration (k + 1) := by
        intro k
        unfold satAddN
        omega
      rw [harith]
    · have hb' : ¬ same_identity run b = true := by simpa using hb
      have hstep : rle_go (some run) (b :: rest) =
          run :: rle_go (some (norm1 b)) rest := by
        simp [rle_go, rle_step, same_identity_norm1_right, hb']
      have hnone : rle_go none (b :: rest) = rle_go (some (norm1 b)) rest := by
        simp [rle_go, rle_step]
      rw [hstep, List.takeWhile_cons_of_neg hb', List.dropWhile_cons_of_neg hb',
        hnone]
      simp only [List.length_nil, satAddN_self _ h]

lemma specGroupsAux_spec (l : List RadioRecord) : ∀ (a : RadioRecord)
    (acc : List RadioRecord),
    specGroupsAux a acc l =
      (a :: (acc.reverse ++ l.takeWhile (fun b => same_identity a b))) ::
        specGroups (l.dropWhile (fun b => same_identity a b)) := by
  induction l with
  | nil => intro a acc; simp [specGroupsAux, specGroups]
  | cons b rest ih =>
    intro a acc
    by_cases hb : same_identity a b
    · rw [specGroupsAux, if_pos hb, ih, List.takeWhile_cons_of_pos hb,
        List.dropWhile_cons_of_pos hb]
      simp
    · have hb' : ¬ same_identity a b = true := by simpa using hb
      rw [specGroupsAux, if_neg hb', List.takeWhile_cons_of_neg hb',
        List.dropWhile_cons_of_neg hb']
      simp [specGroups]

lemma specGroups_cons (a : RadioRecord) (l : List RadioRecord) :
    specGroups (a :: l) =
      (a :: l.takeWhile (fun b => same_identity a b)) ::
        specGroups (l.dropWhile (fun b => same_identity a b)) := by
  rw [specGroups, specGroupsAux_spec]
  simp

lemma rle_go_none_spec : ∀ (n : Nat) (l : List RadioRecord), l.length ≤ n →
    (∀ r ∈ l, r.duration ≤ U32MAX) →
    rle_go none l = (specGroups (l.map norm1)).flatMap specCollapse := by
  intro n
  induction n with
  | zero =>
    intro l hl _
    have hnil : l = [] := List.eq_nil_of_length_eq_zero (Nat.le_zero.mp hl)
    subst hnil
    rfl
  | succ n ih =>
    intro l hl hdur
    match l with
    | [] => rfl
    | a :: rest =>
      have hna : (norm1 a).duration ≤ U32MAX := by
        have := hdur a (by simp)
        unfold norm1
        split
        · simp [U32MAX]
        · exact this
      have hstep : rle_go none (a :: rest) = rle_go (some (norm1 a)) rest := by
        simp [rle_go, rle_step]
      rw [hstep, rle_go_some rest (norm1 a) hna]
      rw [List.map_cons, specGroups_cons, List.flatMap_cons]
      have hpred : (fun b => same_identity (norm1 a) b) ∘ norm1 =
          fun b => same_identity a b := by
        funext b
        simp [Function.comp, same_identity_norm1_left, same_identity_norm1_right]
      rw [List.takeWhile_map, List.dropWhile_map, hpred]
      have htail : rle_go none (rest.dropWhile fun b => same_identity a b) =
          (specGroups ((rest.dropWhile fun b => same_identity a b).map norm1)).flatMap
            specCollapse := by
        apply ih
        · calc (rest.dropWhile fun b => same_identity a b).length
              ≤ rest.length := (List.dropWhile_sublist _).length_le
            _ ≤ n := by simpa using hl
        · intro r hr
          exact hdur r (List.mem_cons_of_mem a ((List.dropWhile_sublist _).subset hr))
      simp only [same_identity_norm1_left] at htail ⊢
      rw [htail]
      simp [specCollapse, List.length_map]

lemma specGroups_flat_length : ∀ (n : Nat) (m : List RadioRecord), m.length ≤ n →
    ((specGroups m).flatMap specCollapse).length = (specGroups m).length := by
  intro n
  induction n with
  | zero =>
    intro m hm
    have hnil : m = [] := List.eq_nil_of_length_eq_zero (Nat.le_zero.mp hm)
    subst hnil
    rfl
  | succ n ih =>
    intro m hm
    match m with
    | [] => rfl
    | a :: rest =>
      rw [specGroups_cons, List.flatMap_cons]
      simp only [specCollapse, List.singleton_append, List.length_cons]
      rw [ih _ (le_trans (List.dropWhile_sublist _).length_le (by simpa using hm))]

/-- C1 (amended): the consolidator emits exactly one record per maximal
adjacent same-identity group of the (duration-normalized) input — the output
length equals the number of maximal groups — and each emitted record is its
group's first record with duration equal to that first record's normalized
duration plus one per further record of the group, saturating at
`u32::MAX` — not, in general, the group's size. -/
theorem rle_characterization (input : List RadioRecord)
    (h : ∀ r ∈ input, r.duration ≤ U32MAX) :
    rle_compress_stream input = consolidatorSpec input ∧
    (rle_compress_stream input).length = (specGroups (input.map norm1)).length := by
  have h1 := rle_go_none_spec input.length input le_rfl h
  refine ⟨h1, ?_⟩
  rw [show rle_compress_stream input = rle_go none input from rfl, h1]
  exact specGroups_flat_length (input.map norm1).length _ le_rfl

/-- Witness for C1: two adjacent same-identity groups collapse into two
records with the predicted durations. -/
theorem rle_characterization_witness :
    rle_compress_stream [wrec, wrec, cexNextMax] =
      consolidatorSpec [wrec, wrec, cexNextMax] ∧
    (rle_compress_stream [wrec, wrec, cexNextMax]).length =
      (specGroups ([wrec, wrec, cexNextMax].map norm1)).length :=
  rle_characterization [wrec, wrec, cexNextMax] (by decide)

/-- Counterexample to C1 as stated: a single record arriving with duration 7
forms a group of size 1, but the consolidator's output record keeps
duration 7 — the output duration is not the group size. -/
theorem rle_group_size_counterexample :
    rle_compress_stream [cexDur7] = [cexDur7] ∧
    (specGroups ([cexDur7].map norm1)).map List.length = [1] ∧
    cexDur7.duration = 7 ∧ (7 : Nat) ≠ 1 := by
  refine ⟨?_, ?_, rfl, by decide⟩ <;> decide

/-! ## C9 — transcribe root selection and failure -/

/-- C9 (amended): for a record whose day and key derive successfully,
`transcribe` fails up front — with the no-root parse error and the index
untouched — exactly if both the per-call `record_dir` and the
construction-time root are empty; otherwise it proceeds using the per-call
root when non-empty, else the construction root.  (A later error remains
possible on that path: a failed read of a matched transcript also returns an
error, which is why the claim's "errors exactly when no usable root" is too
strong; see the counterexample.) -/
theorem transcribe_root_selection (nf : String → String)
    (fsDir : String → Nat → Option DayIndex)
    (fsRead : String → Except String String) (self_root : String) (idx : Index)
    (rec : RadioRecord) (record_dir : String) (day : Nat) (key : K)
    (hday : day_from_rec rec = some day)
    (hkey : key_from_rec nf rec = some key) :
    (record_dir = "" → self_root = "" →
      transcribe nf fsDir fsRead self_root idx rec record_dir =
        (idx, .error (some (.Parse "TextFileTranscriber has no record_dir root")))) ∧
    (record_dir ≠ "" →
      transcribe nf fsDir fsRead self_root idx rec record_dir =
        transcribe_with_root fsDir fsRead idx day key record_dir) ∧
    (record_dir = "" → self_root ≠ "" →
      transcribe nf fsDir fsRead self_root idx rec record_dir =
        transcribe_with_root fsDir fsRead idx day key self_root) := by
  unfold transcribe
  rw [hday, hkey]
  refine ⟨?_, ?_, ?_⟩
  · intro h1 h2
    simp [chooseRoot, h1, h2]
  · intro h1
    simp [chooseRoot, h1]
  · intro h1 h2
    simp [chooseRoot, h1, h2]

/-- Witness for C9: with both roots empty the call fails with the no-root
error, leaving the (empty) index untouched. -/
theorem transcribe_root_selection_witness :
    transcribe id (fun _ _ => none) (fun _ => .error "denied") "" [] wrec "" =
      ([], .error (some (.Parse "TextFileTranscriber has no record_dir root"))) :=
  (transcribe_root_selection id (fun _ _ => none) (fun _ => .error "denied") ""
    [] wrec "" 20250909 ⟨183920, "153.450000", none, none⟩ (by decide)
    (by decide)).1 rfl rfl

/-- Counterexample to C9 as stated: `wrec`'s day and key derive successfully
and the per-call root `"/r"` is usable, yet `transcribe` returns an error,
because the matched transcript file fails to read — so "returns an error
exactly when it has no usable root" is false. -/
theorem transcribe_errors_despite_root :
    day_from_rec wrec = some 20250909 ∧
    key_from_rec id wrec = some cexKey ∧
    ("/r" : String) ≠ "" ∧
    transcribe id cexFsDir cexFsRead "" [] wrec "/r" =
      ([(20250909, cexShard)], .error (some (.IOE "read p: denied"))) := by
  refine ⟨by decide, by decide, by decide, ?_⟩
  rfl

/-! ## C4 — NAC/DCC preference asymmetry -/

/-- Inversion for `parse_event_line`: an accepted record carries the `recno`
the caller passed in as its `record_number`, and its channel code is the
`NAC=`-preferred scan of the prepared line. -/
lemma parse_event_line_ok_some (pDT : List Char → Option NaiveDT)
    (aTz : NaiveDT → Except AppError DT) (nf : String → String)
    (line : List Char) (rn : Nat) (rec : RadioRecord)
    (hp : parse_event_line pDT aTz nf line rn = .ok (some rec)) :
    rec.record_number = rn ∧ rec.dcc = lineChannelCode (trimC (stripBomC line)) := by
  simp only [parse_event_line] at hp
  repeat' split at hp
  all_goals simp_all
  all_goals simp [← hp]

/-- C4: when a line contains both a `NAC=` token and a `DCC=` token with
non-empty values (stated for each parser's own line preparation — the line
parser trims after BOM-stripping, the block parser strips the BOM after
trimming), the line-format parser stores the NAC value as the channel code,
whereas the block-format parser (`parse_freq_type_dcc`) stores the DCC
value. -/
theorem channel_code_asymmetry (line v1 v2 : List Char)
    (hE1 : scanKeyC (trimC (stripBomC line)) "NAC=".data = some v1)
    (hE2 : scanKeyC (trimC (stripBomC line)) "DCC=".data = some v2)
    (hB1 : scanKeyC (stripBomC (trimC line)) "NAC=".data = some v1)
    (hB2 : scanKeyC (stripBomC (trimC line)) "DCC=".data = some v2) :
    lineChannelCode (trimC (stripBomC line)) = some (strOf v1) ∧
    (parse_freq_type_dcc_stream line).2.2 = some (strOf v2) ∧
    (∀ (pDT : List Char → Option NaiveDT) (aTz : NaiveDT → Except AppError DT)
        (nf : String → String) (rn : Nat) (rec : RadioRecord),
      parse_event_line pDT aTz nf line rn = .ok (some rec) →
      rec.dcc = some (strOf v1)) := by
  have h1 : lineChannelCode (trimC (stripBomC line)) = some (strOf v1) := by
    unfold lineChannelCode
    rw [hE1]
  refine ⟨h1, ?_, ?_⟩
  · simp only [parse_freq_type_dcc_stream, blockChannelCode]
    rw [hB2]
  · intro pDT aTz nf rn rec hp
    rw [(parse_event_line_ok_some pDT aTz nf line rn rec hp).2, h1]

/-- Witness for C4: on `cexC4Line` the line parser's channel code is the NAC
value `293`, the block parser's is the DCC value `5`. -/
theorem channel_code_asymmetry_witness :
    lineChannelCode (trimC (stripBomC cexC4Line)) = some "293" ∧
    (parse_freq_type_dcc_stream cexC4Line).2.2 = some "5" :=
  ⟨(channel_code_asymmetry cexC4Line "293".data "5".data (by decide) (by decide)
      (by decide) (by decide)).1,
   (channel_code_asymmetry cexC4Line "293".data "5".data (by decide) (by decide)
      (by decide) (by decide)).2.1⟩

/-! ## C3 — non-numeric index line in the block format -/

/-- C3 (amended): in the synchronous block parser (`srt.rs`
`parse_srt_reader`), a block whose index line is non-blank but does not parse
as a number is parsed exactly as if the index line were `"0"` — the record is
still produced with `record_number = 0`; the streaming block parser
(`srt_stream.rs` `stream_file`), however, drains and discards such a block
(final conjuncts: on the concrete block `cexSrtLines` the synchronous parser
emits the record with number 0 while the streaming parser emits nothing). -/
theorem srt_bad_index_defaults_zero :
    (∀ (pDT : List Char → Option NaiveDT) (aTz : NaiveDT → Except AppError DT)
        (idx : List Char) (rest : List (List Char)),
      trimC idx ≠ [] → parseUsizeC (stripBomC (trimC idx)) = none →
      parse_srt_reader pDT aTz (idx :: rest) =
        parse_srt_reader pDT aTz ("0".data :: rest)) ∧
    (parse_srt_reader pDTx aTzx cexSrtLines).map RadioRecord.record_number = [0] ∧
    srt_stream_file pDTx aTzx cexSrtLines = [] := by
  refine ⟨?_, by decide, by decide⟩
  intro pDT aTz idx rest hne hparse
  have h1 : readNonempty (idx :: rest) = some (idx, rest) := by
    unfold readNonempty
    rw [if_neg hne]
  have h0 : readNonempty ("0".data :: rest) = some ("0".data, rest) := by
    unfold readNonempty
    rw [if_neg (by decide)]
  have h2 : parseUsizeC (stripBomC (trimC "0".data)) = some 0 := by decide
  have hs : stepSrt pDT aTz (idx :: rest) = stepSrt pDT aTz ("0".data :: rest) := by
    unfold stepSrt
    simp only [h1, h0, hparse, h2, Option.getD_none, Option.getD_some]
  show srtGo pDT aTz (rest.length + 1 + 1) (idx :: rest) =
    srtGo pDT aTz (rest.length + 1 + 1) ("0".data :: rest)
  simp only [srtGo]
  rw [hs]

/-- Witness for C3: the general part applied to the concrete bad-index block:
parsing it equals parsing the same block with index `"0"`. -/
theorem srt_bad_index_defaults_zero_witness :
    parse_srt_reader pDTx aTzx cexSrtLines =
      parse_srt_reader pDTx aTzx ("0".data :: cexSrtLines.tail) :=
  srt_bad_index_defaults_zero.1 pDTx aTzx "abc".data cexSrtLines.tail
    (by decide) (by decide)

/-- Counterexample to C3 as stated: on the concrete well-formed block whose
index line is `abc`, the streaming block parser (`srt_stream.rs`, cited by the
claim) produces no record at all — the block *is* discarded — while the
synchronous parser produces it with `record_number = 0`. -/
theorem stream_discards_bad_index :
    srt_stream_file pDTx aTzx cexSrtLines = [] ∧
    (parse_srt_reader pDTx aTzx cexSrtLines).map RadioRecord.record_number = [0] := by
  exact ⟨by decide, by decide⟩

/-! ## C10 — line-format parser assigns record numbers itself -/

lemma event_go_rn (pDT : List Char → Option NaiveDT)
    (aTz : NaiveDT → Except AppError DT) (nf : String → String) :
    ∀ (lines : List (List Char)) (recno : Nat), recno ≤ USIZEMAX →
    ∀ i : Nat, i < (event_go pDT aTz nf recno lines).length →
    ((event_go pDT aTz nf recno lines)[i]?).map RadioRecord.record_number =
      some (min USIZEMAX (recno + i)) := by
  intro lines
  induction lines with
  | nil =>
    intro recno _ i h
    simp [event_go] at h
  | cons l ls ih =>
    intro recno hr i h
    rcases hp : parse_event_line pDT aTz nf l recno with e | o
    · simp only [event_go, hp] at h ⊢
      exact ih recno hr i h
    · rcases o with _ | rec
      · simp only [event_go, hp] at h ⊢
        exact ih recno hr i h
      · simp only [event_go, hp] at h ⊢
        match i with
        | 0 =>
          simp only [List.getElem?_cons_zero]
          show some rec.record_number = some (min USIZEMAX (recno + 0))
          rw [(parse_event_line_ok_some pDT aTz nf l recno rec hp).1]
          congr 1
          omega
        | i + 1 =>
          simp only [List.getElem?_cons_succ]
          rw [ih (min USIZEMAX (recno + 1)) (Nat.min_le_left _ _) i
            (by simpa using h)]
          congr 1
          omega

/-- C10 (amended): the line-format parser numbers its output itself — the
record at (0-based) position `i` of its output carries
`record_number = min(usize::MAX, i + 1)`, regardless of input content: the
counter starts at 1 and is advanced by `usize::saturating_add(1)` per
accepted line only, so numbers are `1, 2, 3, …` (strictly increasing) until
the saturation point `usize::MAX`, which is unreachable for any physically
realizable input. -/
theorem event_record_numbering (pDT : List Char → Option NaiveDT)
    (aTz : NaiveDT → Except AppError DT) (nf : String → String)
    (lines : List (List Char)) (i : Nat)
    (h : i < (event_stream_file pDT aTz nf lines).length) :
    ((event_stream_file pDT aTz nf lines)[i]?).map RadioRecord.record_number =
      some (min USIZEMAX (i + 1)) := by
  have hx := event_go_rn pDT aTz nf lines 1 (by norm_num [USIZEMAX]) i h
  rw [show (1 : Nat) + i = i + 1 from Nat.add_comm 1 i] at hx
  exact hx

/-- Witness for C10: the single accepted line yields the record numbered 1. -/
theorem event_record_numbering_witness :
    ((event_stream_file pDTg aTzx id [cexCallLine])[0]?).map
      RadioRecord.record_number = some (min USIZEMAX (0 + 1)) :=
  event_record_numbering pDTg aTzx id [cexCallLine] 0 (by decide)

lemma event_go_replicate (k : Nat) : ∀ r i : Nat, r ≤ USIZEMAX → i < k →
    ((event_go pDTg aTzx id r (List.replicate k cexCallLine))[i]?).map
        RadioRecord.record_number = some (min USIZEMAX (r + i)) := by
  have hparse : ∀ r : Nat, parse_event_line pDTg aTzx id cexCallLine r =
      .ok (some (cexCallRec r)) := fun _ => rfl
  induction k with
  | zero =>
    intro r i _ hi
    omega
  | succ k ih =>
    intro r i hr hi
    rw [List.replicate_succ]
    simp only [event_go, hparse r]
    match i with
    | 0 =>
      simp only [List.getElem?_cons_zero]
      show some (cexCallRec r).record_number = some (min USIZEMAX (r + 0))
      show some r = some (min USIZEMAX (r + 0))
      congr 1
      omega
    | i + 1 =>
      simp only [List.getElem?_cons_succ]
      rw [ih (min USIZEMAX (r + 1)) i (Nat.min_le_left _ _) (by omega)]
      congr 1
      omega

/-- Counterexample to C10 as stated: on an input of `usize::MAX + 1` accepted
lines, the record at 1-based position `usize::MAX + 1` carries
`record_number = usize::MAX`, not `usize::MAX + 1`, and equals its
predecessor\u2019s number — the numbering saturates instead of increasing
strictly. -/
theorem event_numbering_saturates :
    ((event_stream_file pDTg aTzx id
        (List.replicate (USIZEMAX + 1) cexCallLine))[USIZEMAX]?).map
      RadioRecord.record_number = some USIZEMAX ∧
    ((event_stream_file pDTg aTzx id
        (List.replicate (USIZEMAX + 1) cexCallLine))[USIZEMAX - 1]?).map
      RadioRecord.record_number = some USIZEMAX ∧
    USIZEMAX ≠ USIZEMAX + 1 := by
  refine ⟨?_, ?_, by omega⟩
  · have hx := event_go_replicate (USIZEMAX + 1) 1 USIZEMAX
      (by norm_num [USIZEMAX]) (by omega)
    rw [show min USIZEMAX (1 + USIZEMAX) = USIZEMAX from by omega] at hx
    exact hx
  · have hx := event_go_replicate (USIZEMAX + 1) 1 (USIZEMAX - 1)
      (by norm_num [USIZEMAX]) (by omega)
    rw [show min USIZEMAX (1 + (USIZEMAX - 1)) = USIZEMAX from by omega] at hx
    exact hx

end Callscribe
